import Mathlib

/-!
Formal model of the social-listening pipeline (Taboola_Social-Listening-Agent).

Shallow embedding of the core components described in the specification:
the heuristic relevance filter and staged router (`base_ingestion_agent.py`),
the LLM gateway retry loops (`llm_client.py`, `reddit_ingestion_agent.py`),
the schema-repair step and batch orchestrator (`sentiment_analyzer.py`),
and the aggregation engine (`data_processor.py`).

Python JSON-like values are modelled by the inductive type `PyVal`; Python
dictionaries are association lists with update-in-place semantics (`dset`
replaces the first binding of an existing key and appends new keys at the
end, matching insertion-ordered Python dicts, whose keys are unique).
Python floats are modelled by rationals; all numeric comparisons in the
code are far from binary-rounding boundaries.
-/

namespace SocialListening

/-! Part one: definitions — the shallow embedding of the data model
and of the operations of the source. -/

/-- Python JSON-style value: None, bool, number, string, list or dict. -/

inductive PyVal where
  | null : PyVal
  | bool : Bool → PyVal
  | num : ℚ → PyVal
  | str : String → PyVal
  | list : List PyVal → PyVal
  | dict : List (String × PyVal) → PyVal

/-- Binding list modelling a Python dict (keys unique in any value produced by Python). -/

abbrev Dct := List (String × PyVal)

/-- Python `isinstance(v, dict)`. -/

def PyVal.isDict : PyVal → Bool
  | .dict _ => true
  | _ => false

/-- Python `isinstance(v, list)`. -/

def PyVal.isList : PyVal → Bool
  | .list _ => true
  | _ => false

/-- Python `d.get(k)` / `k in d`: first binding of the key, if any. -/

def dget : Dct → String → Option PyVal
  | [], _ => Option.none
  | (k', v') :: rest, k => if k' = k then some v' else dget rest k

/-- Python `d[k] = v`: replace the binding of an existing key in place,
otherwise append the new binding at the end. -/

def dset : Dct → String → PyVal → Dct
  | [], k, v => [(k, v)]
  | (k', v') :: rest, k, v =>
      if k' = k then (k, v) :: rest else (k', v') :: dset rest k v

/-- Lookup on a `PyVal` that is a dict; `none` otherwise. -/

def PyVal.getKey : PyVal → String → Option PyVal
  | .dict d, k => dget d k
  | _, _ => Option.none

/-! Configuration constants from `sentiment_analysis/config.py`. -/


/-- Fields to analyze for sentiment (`config.ANALYSIS_FIELDS`). -/

def ANALYSIS_FIELDS : List String :=
  ["product_quality", "user_experience", "business_practices",
   "financial_performance", "publisher_relations", "advertiser_value"]

/-- Sentiment categories (`config.SENTIMENT_CATEGORIES`). -/

def SENTIMENT_CATEGORIES : List String := ["positive", "neutral", "negative", "mixed"]

/-- `config.MAX_RETRIES`. -/

def MAX_RETRIES : Nat := 3

/-! The schema-repair step: `SentimentAnalyzer._validate_and_fix_response`
and `SentimentAnalyzer._get_empty_response` from `sentiment_analyzer.py`. -/


/-- Python `response["overall_sentiment"] in SENTIMENT_CATEGORIES`:
true exactly when the value equals one of the four category strings. -/

def validSentiment : PyVal → Bool
  | .str s => SENTIMENT_CATEGORIES.contains s
  | _ => false

/-- Default per-field record synthesized by the validator. -/

def canonicalFieldEntry : PyVal :=
  .dict [("sentiment", .str "neutral"), ("confidence", .num 0), ("key_phrases", .list [])]

/-- The canonical empty response of `SentimentAnalyzer._get_empty_response`. -/

def get_empty_response : PyVal :=
  .dict
    [("overall_sentiment", .str "neutral"),
     ("field_sentiments", .dict (ANALYSIS_FIELDS.map fun f => (f, canonicalFieldEntry))),
     ("edge_cases",
       .dict [("is_sarcastic", .bool false), ("has_mixed_sentiment", .bool false),
              ("is_non_english", .bool false), ("language", .str "unknown"),
              ("is_spam", .bool false)]),
     ("themes", .list []),
     ("reasoning", .str "Empty or invalid text")]

/-- Python `if key not in d or d[key] not in SENTIMENT_CATEGORIES: d[key] = "neutral"`
(used for `overall_sentiment` on the response and `sentiment` on each field
record; an absent key reads as None, which is not a category). -/

def normKey (k : String) (d : Dct) : Dct :=
  match dget d k with
  | some v => if validSentiment v then d else dset d k (.str "neutral")
  | Option.none => dset d k (.str "neutral")

/-- Python `if key not in d: d[key] = dflt`. -/

def ensureKey (k : String) (dflt : PyVal) (d : Dct) : Dct :=
  match dget d k with
  | some _ => d
  | Option.none => dset d k dflt

/-- Normalization of the raw `field_sentiments` value: keep a dict as is;
convert a list of records either by their `field` key (when the key names a
configured analysis field; a non-string or empty `field` value never does)
or, when that produces nothing, by position; anything else becomes empty. -/

def normalizeFS : Option PyVal → Dct
  | some (.dict m) => m
  | some (.list items) =>
      let byField : Dct := items.foldl
        (fun acc it =>
          match it with
          | .dict m =>
              match dget m "field" with
              | some (.str f) => if ANALYSIS_FIELDS.contains f then dset acc f (.dict m) else acc
              | _ => acc
          | _ => acc) []
      if byField.isEmpty then
        (ANALYSIS_FIELDS.enum).foldl
          (fun acc p =>
            match items[p.1]? with
            | some (PyVal.dict m) => dset acc p.2 (.dict m)
            | _ => acc) []
      else byField
  | _ => []

/-- Per-field repair: a missing or non-dict entry becomes the canonical
default; a dict entry gets an invalid `sentiment` reset to neutral and
missing `confidence` / `key_phrases` backfilled (in that statement order). -/

def fixFieldEntry : Option PyVal → PyVal
  | some (.dict fs) =>
      .dict (ensureKey "key_phrases" (.list [])
              (ensureKey "confidence" (.num 0)
                (normKey "sentiment" fs)))
  | _ => canonicalFieldEntry

/-- Loop `for field in ANALYSIS_FIELDS` of the validator, over a key list. -/

def fixFields (keys : List String) (m : Dct) : Dct :=
  keys.foldl (fun acc f => dset acc f (fixFieldEntry (dget acc f))) m

/-- Default `edge_cases` synthesized by the validator (language `en`). -/

def validatorEdgeCases : PyVal :=
  .dict [("is_sarcastic", .bool false), ("has_mixed_sentiment", .bool false),
         ("is_non_english", .bool false), ("language", .str "en"), ("is_spam", .bool false)]

/-- Step fixing `themes`: absent or non-list becomes the empty list;
an existing list is kept unchanged (the source performs no truncation). -/

def fixThemes (d : Dct) : Dct :=
  match dget d "themes" with
  | some (.list _) => d
  | _ => dset d "themes" (.list [])

/-- Body of `_validate_and_fix_response` once the input is known to be a
dict, composing the statements of the source in order: fix
`overall_sentiment`, normalize and fix `field_sentiments`, then backfill
`edge_cases`, `themes` and `reasoning`. -/

def repairDict (d : Dct) : Dct :=
  ensureKey "reasoning" (.str "Analysis completed")
    (fixThemes
      (ensureKey "edge_cases" validatorEdgeCases
        (dset (normKey "overall_sentiment" d) "field_sentiments"
          (.dict (fixFields ANALYSIS_FIELDS
            (normalizeFS (dget (normKey "overall_sentiment" d) "field_sentiments")))))))

/-- `SentimentAnalyzer._validate_and_fix_response`: a list input is replaced
by its first dict element (or the empty dict), a non-dict input yields the
canonical empty response, and a dict input is repaired field by field. -/

def validate_and_fix_response (response : PyVal) : PyVal :=
  let response :=
    match response with
    | .list items => (items.find? PyVal.isDict).getD (.dict [])
    | _ => response
  match response with
  | .dict d => .dict (repairDict d)
  | _ => get_empty_response

/-- Shape invariant satisfied by every output of `repairDict`: the five
top-level keys are present, `overall_sentiment` is a valid category,
`field_sentiments` is a dict fixed by the per-field loop, and `themes` is
a list. Any dict with this shape is a fixed point of `repairDict`. -/

def Repaired (y : Dct) : Prop :=
  (∃ v, dget y "overall_sentiment" = some v ∧ validSentiment v = true) ∧
  (∃ N, dget y "field_sentiments" = some (.dict N) ∧ fixFields ANALYSIS_FIELDS N = N) ∧
  (∃ e, dget y "edge_cases" = some e) ∧
  (∃ l, dget y "themes" = some (.list l)) ∧
  (∃ r, dget y "reasoning" = some r)

/-- Property asserted by the original C5 claim for one value: the `themes`
entry of a repaired response holds at most three elements. -/

def themes_at_most_three (v : PyVal) : Prop :=
  ∀ l, PyVal.getKey v "themes" = some (.list l) → l.length ≤ 3

/-! Heuristic relevance filter and staged router, from `base_ingestion_agent.py`. -/


/-- Python `needle in haystack` prefix test over character lists. -/

def listPrefixOf : List Char → List Char → Bool
  | [], _ => true
  | _ :: _, [] => false
  | a :: as, b :: bs => a == b && listPrefixOf as bs

/-- Python substring membership `needle in haystack` over character lists. -/

def listContainsSub (needle : List Char) : List Char → Bool
  | [] => needle.isEmpty
  | c :: rest => listPrefixOf needle (c :: rest) || listContainsSub needle rest

/-- Python `needle in haystack` on strings. -/

def strContains (hay sub : String) : Bool := listContainsSub sub.toList hay.toList

/-- Python `str.lower()` (ASCII case map, as exercised by the filter data). -/

def strLower (s : String) : String := ⟨s.data.map Char.toLower⟩

/-- Post shape consumed by the quick filter: title, body and subreddit. -/

structure Post where
  title : String
  selftext : String
  subreddit : String

/-- Result triple of the shared heuristic filter:
`(should_process, confidence, reason)`. -/

structure ScoreResult where
  should_process : Bool
  confidence : ℚ
  reason : String

/-- The configured generic/false-positive phrases of `passes_quick_filter`. -/

def generic_phrases : List String :=
  ["i realize", "i realized", "just realized", "didn\x27t realize",
   "don\x27t realize", "never realized", "finally realized",
   "suddenly realized", "now realize", "people realize", "you realize",
   "we realize", "they realize"]

/-- The configured strong-indicator phrases of `passes_quick_filter`. -/

def strong_indicators : List String :=
  ["taboola realize", "realize by taboola", "taboola\x27s realize",
   "taboola platform", "taboola widget", "taboola advertising",
   "taboola ad", "taboola sponsored", "work at taboola",
   "working for taboola", "taboola sucks", "taboola spam",
   "block taboola", "remove taboola", "taboola monetization",
   "taboola revenue"]

/-- The configured relevant-terms vocabulary of `passes_quick_filter`. -/

def relevant_terms : List String :=
  ["advertising", "ad network", "sponsored", "native ad", "monetize",
   "monetization", "revenue", "publisher", "cpc", "cpm", "impressions",
   "clicks", "outbrain", "revcontent", "mgid", "widget", "recommendation",
   "content discovery", "banner", "display", "campaign"]

/-- The curated subreddit allow-list of `passes_quick_filter` (a Python
set used only for membership tests). -/

def relevant_subs : List String :=
  ["advertising", "adops", "marketing", "digital_marketing", "webdev",
   "web_design", "blogging", "contentcreation", "entrepreneur",
   "smallbusiness", "ppc", "seo"]

/-- The combined lowercased content `title_lower + " " + body_lower`. -/

def filterContent (post : Post) : String :=
  strLower post.title ++ " " ++ strLower post.selftext

/-- The shared heuristic filter `passes_quick_filter`: a priority-ordered
confidence ladder over the combined lowercased title and body. -/

def passes_quick_filter (post : Post) : ScoreResult :=
  let content := filterContent post
  if !(strContains content "taboola") then ⟨false, 0, "No Taboola mention"⟩
  else
    match generic_phrases.find? (fun p => strContains content p) with
    | some p => ⟨false, 0.1, "Generic phrase: " ++ p⟩
    | Option.none =>
      match strong_indicators.find? (fun p => strContains content p) with
      | some p => ⟨true, 0.95, "Strong indicator: " ++ p⟩
      | Option.none =>
        let context_count := relevant_terms.countP (fun t => strContains content t)
        if context_count ≥ 3 then
          ⟨true, 0.85, "Strong context (" ++ toString context_count ++ " relevant terms)"⟩
        else if context_count ≥ 2 then
          ⟨true, 0.65, "Medium context (" ++ toString context_count ++ " relevant terms)"⟩
        else if context_count ≥ 1 then
          ⟨true, 0.45, "Weak context (" ++ toString context_count ++ " relevant term)"⟩
        else if relevant_subs.contains (strLower post.subreddit) then
          ⟨true, 0.6, "Relevant subreddit: r/" ++ post.subreddit⟩
        else if content.length > 150 then
          ⟨true, 0.4, "Taboola mentioned with substantial content"⟩
        else ⟨false, 0.2, "Insufficient relevance signals"⟩

/-- The routing loop `BaseIngestionAgent.run_quick_filter`, generic over
the injected quick filter and the post type, returning
`(high_confidence, needs_llm, rejected)`. The optional observer
callbacks of the source return `None` and cannot affect the outcome, so
they are omitted. -/

def run_quick_filter {P : Type} (qf : P → ScoreResult) (auto_accept_threshold : ℚ) :
    List P → List (P × String) × List P × Nat
  | [] => ([], [], 0)
  | p :: ps =>
    let rest := run_quick_filter qf auto_accept_threshold ps
    let r := qf p
    if !r.should_process then (rest.1, rest.2.1, rest.2.2 + 1)
    else if r.confidence ≥ auto_accept_threshold then
      ((p, r.reason) :: rest.1, rest.2.1, rest.2.2)
    else (rest.1, p :: rest.2.1, rest.2.2)

def routerExampleScorer : Nat → ScoreResult := fun n =>
  if n = 0 then ⟨true, 0.85, "hi"⟩
  else if n = 1 then ⟨true, 0.65, "mid"⟩
  else ⟨false, 0, "no"⟩

def genericPhrasePost : Post :=
  { title := "Taboola widget - i realize it is everywhere",
    selftext := "",
    subreddit := "news" }

/-! Aggregation engine: `RedditDataProcessor.calculate_field_distributions`
from `data_processor.py`. -/


/-- Low-confidence cutoff (`data_processor.LOW_CONFIDENCE_THRESHOLD`). -/

def LOW_CONFIDENCE_THRESHOLD : ℚ := 0.3

/-- Per-field record as read by the aggregator; `sentiment` and
`confidence` are read with `.get` defaults (neutral and 0). -/

structure FieldRecord where
  sentiment : Option String
  confidence : Option ℚ

/-- Processed item as read by the aggregator: the `field_sentiments`
mapping of its attached analysis (an absent field reads as the empty
record, whose confidence 0 never qualifies). -/

structure ProcessedItem where
  field_sentiments : List (String × FieldRecord)

/-- Python dict lookup `fs.get(field, {})` on the typed records. -/

def lookupField (fs : List (String × FieldRecord)) (field : String) : Option FieldRecord :=
  (fs.find? (fun p => p.1 == field)).map (fun p => p.2)

/-- Python `Counter` increment: an existing key keeps its position, a new
key is appended. -/

def counterAdd (c : List (String × Nat)) (k : String) : List (String × Nat) :=
  if c.any (fun p => p.1 == k) then
    c.map (fun p => if p.1 == k then (p.1, p.2 + 1) else p)
  else c ++ [(k, 1)]

/-- Inner loop of `calculate_field_distributions` for one field: the
sentiment counter and total over items whose confidence for that field
exceeds the low threshold. -/

def fieldSentimentCounts (processed : List ProcessedItem) (field : String) :
    List (String × Nat) × Nat :=
  processed.foldl
    (fun acc item =>
      match lookupField item.field_sentiments field with
      | some fd =>
          if fd.confidence.getD 0 > LOW_CONFIDENCE_THRESHOLD then
            (counterAdd acc.1 (fd.sentiment.getD "neutral"), acc.2 + 1)
          else acc
      | Option.none => acc)
    ([], 0)

/-- `RedditDataProcessor.calculate_field_distributions`: for each
analysis field, the percentage of each counted sentiment over the
qualifying items plus the raw mention count; a field with no qualifying
item gets only a zero count. -/

def calculate_field_distributions (processed : List ProcessedItem) :
    List (String × List (String × ℚ)) :=
  ANALYSIS_FIELDS.map (fun field =>
    let sc := fieldSentimentCounts processed field
    if sc.2 > 0 then
      (field,
        (sc.1.map fun p => (p.1, (p.2 : ℚ) / (sc.2 : ℚ) * 100)) ++
          [("total_mentions", (sc.2 : ℚ))])
    else (field, [("total_mentions", 0)]))

/-- Processed item whose analysis scores `product_quality` positive at
the given confidence. -/

def productQualityItem (conf : ℚ) : ProcessedItem :=
  ⟨[("product_quality", ⟨some "positive", some conf⟩)]⟩

/-! LLM gateway retry loops: `GeminiClient.generate` from `llm_client.py`
and `call_gemini_filter` from `reddit_ingestion_agent.py`, modelled over
an HTTP oracle giving the outcome of each attempt. -/


/-- Outcome of one HTTP POST as the retry loops see it: a response with a
status code, its extracted body text, and the decoded JSON payload when
the body decodes (`none` otherwise); or a timeout; or another transport
error. -/

inductive HttpResp where
  | resp (code : Nat) (body : String) (parsed : Option PyVal)
  | timeout
  | netError

/-- Trace of one gateway call: how many HTTP requests were made, how many
sleeps were performed, and the final outcome (returned value or raised
error). -/

structure GenTrace where
  requests : Nat
  sleeps : Nat
  outcome : Except String PyVal

/-- One attempt of `GeminiClient.generate`: `raise_for_status` turns any
4xx/5xx status into an exception; otherwise the parsed payload is
returned, a missing payload standing for the `ValueError` or
`JSONDecodeError` raised while extracting or parsing the body. All of
these, like timeouts and transport errors, are caught by the single
`except` clause of the source and treated alike. -/

def geminiAttempt : HttpResp → Except String PyVal
  | .resp code _ parsed =>
      if 400 ≤ code ∧ code < 600 then .error ("status " ++ toString code)
      else
        match parsed with
        | some v => .ok v
        | Option.none => .error "LLM output is not valid JSON"
  | .timeout => .error "timeout"
  | .netError => .error "network error"

/-- The retry loop of `GeminiClient.generate` with `remaining` attempts
left: a caught exception sleeps `RETRY_DELAY` and retries while attempts
remain, and is re-raised on the last attempt. -/

def geminiGenerateGo (http : Nat → HttpResp) : Nat → Nat → GenTrace
  | _, 0 => ⟨0, 0, .error "Gemini client failed without raising an exception"⟩
  | attempt, remaining + 1 =>
    match geminiAttempt (http attempt) with
    | .ok v => ⟨1, 0, .ok v⟩
    | .error e =>
      if remaining = 0 then ⟨1, 0, .error e⟩
      else
        let rest := geminiGenerateGo http (attempt + 1) remaining
        ⟨rest.requests + 1, rest.sleeps + 1, rest.outcome⟩

/-- `GeminiClient.generate` under an HTTP oracle, with the configured
`MAX_RETRIES` of 3. -/

def gemini_generate (http : Nat → HttpResp) : GenTrace :=
  geminiGenerateGo http 0 MAX_RETRIES

/-- The retryable status codes of `call_gemini_filter`. -/

def RETRYABLE_STATUS : List Nat := [429, 500, 502, 503, 504]

/-- Python truthiness `bool(v)`. -/

def PyVal.truthy : PyVal → Bool
  | .null => false
  | .bool b => b
  | .num q => decide (q ≠ 0)
  | .str s => !(s == "")
  | .list xs => !xs.isEmpty
  | .dict d => !d.isEmpty

/-- Python `float(v)` on the values reaching the relevance-score
conversion: numbers and booleans convert; any other truthy value raises.
(Numeric strings, which `float` would also accept, do not occur in the
JSON payloads modelled here.) -/

def pyFloat : PyVal → Option ℚ
  | .num q => some q
  | .bool b => some (if b then 1 else 0)
  | _ => Option.none

/-- The 200 branch of `call_gemini_filter`: `parse_llm_json` falls back
to the empty dict when the body is not parseable JSON, and the filter
record is rebuilt from the payload; a payload on which the attribute
access or float conversion would raise is an error that no `except`
clause of the loop catches. -/

def redditFilterSuccess (body : String) (parsed : Option PyVal) : Except String PyVal :=
  match parsed.getD (.dict []) with
  | .dict d =>
      let rawScore := (dget d "relevance_score").getD (.num 0)
      let score := if rawScore.truthy then rawScore else .num 0
      match pyFloat score with
      | some q =>
          .ok (.dict
            [("is_relevant", .bool ((dget d "is_relevant").getD (.bool false)).truthy),
             ("mentions_taboola", .bool ((dget d "mentions_taboola").getD (.bool false)).truthy),
             ("mentions_realize_product",
               .bool ((dget d "mentions_realize_product").getD (.bool false)).truthy),
             ("relevance_score", .num q),
             ("raw_model_response", .str body)])
      | Option.none => .error "float conversion failed"
  | _ => .error "attribute error on non-dict payload"

/-- The retry loop of `call_gemini_filter` (max 5 attempts): a one-second
pause precedes every attempt after the first; a 200 response returns (or
raises) at once; a retryable status (429/500/502/503/504), a timeout or
a transport error backs off and retries, escalating once attempts run
out; any other status raises immediately with no retry. -/

def redditFilterGo (http : Nat → HttpResp) : Nat → Nat → GenTrace
  | _, 0 => ⟨0, 0, .error "Failed to process post after max retries"⟩
  | attempt, remaining + 1 =>
    let pre := if attempt = 0 then 0 else 1
    match http attempt with
    | .resp code body parsed =>
        if code = 200 then ⟨1, pre, redditFilterSuccess body parsed⟩
        else if code ∈ RETRYABLE_STATUS then
          if remaining = 0 then
            ⟨1, pre, .error ("Max retries reached: Gemini returned status " ++ toString code)⟩
          else
            let rest := redditFilterGo http (attempt + 1) remaining
            ⟨rest.requests + 1, rest.sleeps + pre + 1, rest.outcome⟩
        else ⟨1, pre, .error ("Gemini returned status " ++ toString code)⟩
    | .timeout =>
        if remaining = 0 then ⟨1, pre, .error "Request timeout after max retries"⟩
        else
          let rest := redditFilterGo http (attempt + 1) remaining
          ⟨rest.requests + 1, rest.sleeps + pre + 1, rest.outcome⟩
    | .netError =>
        if remaining = 0 then ⟨1, pre, .error "Network error after max retries"⟩
        else
          let rest := redditFilterGo http (attempt + 1) remaining
          ⟨rest.requests + 1, rest.sleeps + pre + 1, rest.outcome⟩

/-- `call_gemini_filter` under an HTTP oracle (its own `max_retries` is 5). -/

def call_gemini_filter (http : Nat → HttpResp) : GenTrace :=
  redditFilterGo http 0 5

/-! Single-item analysis and batch orchestration:
`SentimentAnalyzer.analyze_text` and `SentimentAnalyzer.analyze_batch`
from `sentiment_analyzer.py`. -/


/-- External collaborators of the analyzer: the prompt builder
(`_build_prompt`; the prompt wording is an external concern and only its
dependence on text and context matters here), the injected LLM client
(`generate` returns a value or raises), and `json.loads` on strings. -/

structure AnalyzeEnv where
  build_prompt : String → String → String
  gen : String → Except String PyVal
  jsonParse : String → Option PyVal

/-- `SentimentAnalyzer._parse_llm_output`: a dict passes through, a
string is JSON-decoded (raising on a decode failure), anything else
raises. -/

def parse_llm_output (jsonParse : String → Option PyVal) : PyVal → Except String PyVal
  | .dict d => .ok (.dict d)
  | .str s =>
      match jsonParse s with
      | some v => .ok v
      | Option.none => .error "LLM output is not valid JSON"
  | _ => .error "Unsupported LLM output type"

/-- Python `if metadata: result["metadata"] = metadata` — the metadata
dict is attached only when truthy (a `None` metadata is modelled as the
empty dict, which is equally falsy). -/

def attach_metadata (metadata : Dct) (v : PyVal) : PyVal :=
  if metadata.isEmpty then v
  else
    match v with
    | .dict d => .dict (dset d "metadata" (.dict metadata))
    | w => w

/-- Python `not text or not text.strip()`: the text is empty or all
whitespace. -/

def strBlank (s : String) : Bool := s.data.all Char.isWhitespace

/-- Trace of one `analyze_text` call: how many times the LLM client
`generate` was invoked, and the returned value or raised exception. -/

structure CallTrace where
  gen_calls : Nat
  result : Except String PyVal

/-- `SentimentAnalyzer.analyze_text`: blank text short-circuits to the
canonical empty response (with metadata attached when truthy) without
calling the client; otherwise the client output is parsed and repaired,
and any exception of `generate` or of the parse step propagates. -/

def analyze_text (env : AnalyzeEnv) (text context : String) (metadata : Dct) : CallTrace :=
  if strBlank text then
    ⟨0, .ok (attach_metadata metadata get_empty_response)⟩
  else
    match env.gen (env.build_prompt text context) with
    | .error e => ⟨1, .error e⟩
    | .ok raw =>
      match parse_llm_output env.jsonParse raw with
      | .error e => ⟨1, .error e⟩
      | .ok parsed => ⟨1, .ok (attach_metadata metadata (validate_and_fix_response parsed))⟩

/-- One batch item as read by `process_item`: the `text`, `context` and
`metadata` entries of the submitted dict, with the `.get` defaults
(empty text, `post` context, empty metadata) already applied. -/

structure BatchItem where
  text : String
  context : String
  metadata : Dct

/-- The worker body `process_item` of `analyze_batch` (minus the index
bookkeeping): any exception from `analyze_text` is replaced by the
canonical empty response, so a worker never fails. -/

def process_item (env : AnalyzeEnv) (item : BatchItem) : PyVal :=
  match (analyze_text env item.text item.context item.metadata).result with
  | .ok r => r
  | .error _ => get_empty_response

/-- Completed futures written into the pre-sized slot array
(`results[idx] = result`). -/

def fill_slots : List (Option PyVal) → List (Nat × PyVal) → List (Option PyVal)
  | slots, [] => slots
  | slots, (i, v) :: rest => fill_slots (slots.set i (some v)) rest

/-- `SentimentAnalyzer.analyze_batch` under an environment of
collaborators: every item is submitted to the pool at its index;
`completion_order` lists the indices in the order `as_completed` yields
the futures; each future stores its result at its submission index; the
final comprehension coerces any slot that is not a dict to the empty
response. -/

def analyze_batch (env : AnalyzeEnv) (items : List BatchItem)
    (completion_order : List Nat) : List PyVal :=
  (fill_slots (List.replicate items.length Option.none)
      (completion_order.filterMap
        (fun i => (items[i]?).map (fun it => (i, process_item env it))))).map
    (fun slot =>
      match slot with
      | some v => if v.isDict then v else get_empty_response
      | Option.none => get_empty_response)

def blankTextEnv : AnalyzeEnv :=
  { build_prompt := fun text _ => text,
    gen := fun p => if p = "B" then .error "gateway down" else .ok (.dict []),
    jsonParse := fun _ => Option.none }

def batchEnv : AnalyzeEnv :=
  { build_prompt := fun text _ => text,
    gen := fun p => if p = "B" then .error "gateway down" else .ok (.dict []),
    jsonParse := fun _ => Option.none }

def batchItems : List BatchItem :=
  [⟨"A", "post", []⟩, ⟨"B", "post", []⟩, ⟨"C", "comment", []⟩]

/-! Part two: theorems. -/

theorem dget_dset_self (d : Dct) (k : String) (v : PyVal) :
    dget (dset d k v) k = some v := by
  induction d with
  | nil => simp [dget, dset]
  | cons p rest ih =>
    obtain ⟨pk, pv⟩ := p
    by_cases h : pk = k <;> simp [dget, dset, h, ih]

theorem dget_dset_ne (d : Dct) {k k' : String} (v : PyVal) (h : k' ≠ k) :
    dget (dset d k v) k' = dget d k' := by
  have hk : ¬ k = k' := fun e => h e.symm
  induction d with
  | nil => simp [dget, dset, hk]
  | cons p rest ih =>
    obtain ⟨pk, pv⟩ := p
    by_cases hp : pk = k
    · subst hp
      simp [dget, dset, hk]
    · simp [dget, dset, hp, ih]

theorem dset_dget_self {d : Dct} {k : String} {v : PyVal}
    (h : dget d k = some v) : dset d k v = d := by
  induction d with
  | nil => simp [dget] at h
  | cons p rest ih =>
    obtain ⟨pk, pv⟩ := p
    by_cases hp : pk = k
    · subst hp
      simp [dget] at h
      simp [dset, h]
    · simp [dget, hp] at h
      simp [dset, hp, ih h]

/-! Structural lemmas about the repair steps. -/


theorem dget_normKey_self (k : String) (d : Dct) :
    ∃ v, dget (normKey k d) k = some v ∧ validSentiment v = true := by
  unfold normKey
  cases h : dget d k with
  | none => exact ⟨.str "neutral", by simp [dget_dset_self], by decide⟩
  | some v =>
    by_cases hv : validSentiment v
    · exact ⟨v, by simp [hv, h], hv⟩
    · exact ⟨.str "neutral", by simp [hv, dget_dset_self], by decide⟩

theorem normKey_id {k : String} {d : Dct} {v : PyVal}
    (h : dget d k = some v) (hv : validSentiment v = true) : normKey k d = d := by
  unfold normKey
  simp [h, hv]

theorem dget_normKey_ne (k : String) (d : Dct) {j : String} (hj : j ≠ k) :
    dget (normKey k d) j = dget d j := by
  unfold normKey
  cases h : dget d k with
  | none => simp [dget_dset_ne _ _ hj]
  | some v => by_cases hv : validSentiment v <;> simp [hv, dget_dset_ne _ _ hj]

theorem dget_ensureKey_self (k : String) (dflt : PyVal) (d : Dct) :
    ∃ v, dget (ensureKey k dflt d) k = some v := by
  unfold ensureKey
  cases h : dget d k with
  | none => exact ⟨dflt, by simp [dget_dset_self]⟩
  | some v => exact ⟨v, by simp [h]⟩

theorem ensureKey_id {k : String} {dflt : PyVal} {d : Dct}
    (h : ∃ v, dget d k = some v) : ensureKey k dflt d = d := by
  obtain ⟨v, hv⟩ := h
  unfold ensureKey
  simp [hv]

theorem dget_ensureKey_ne (k : String) (dflt : PyVal) (d : Dct) {j : String} (hj : j ≠ k) :
    dget (ensureKey k dflt d) j = dget d j := by
  unfold ensureKey
  cases h : dget d k with
  | none => simp [dget_dset_ne _ _ hj]
  | some v => simp

theorem dget_fixThemes_self (d : Dct) :
    dget (fixThemes d) "themes" =
      some (match dget d "themes" with
            | some (PyVal.list l) => PyVal.list l
            | _ => PyVal.list []) := by
  unfold fixThemes
  cases h : dget d "themes" with
  | none => simp [dget_dset_self]
  | some v => cases v <;> simp [h, dget_dset_self]

theorem fixThemes_id {d : Dct} {l : List PyVal}
    (h : dget d "themes" = some (.list l)) : fixThemes d = d := by
  unfold fixThemes
  simp [h]

theorem dget_fixThemes_ne (d : Dct) {j : String} (hj : j ≠ "themes") :
    dget (fixThemes d) j = dget d j := by
  unfold fixThemes
  cases h : dget d "themes" with
  | none => simp [dget_dset_ne _ _ hj]
  | some v => cases v <;> simp [h, dget_dset_ne _ _ hj]

theorem fixThemes_list (d : Dct) : ∃ l, dget (fixThemes d) "themes" = some (.list l) := by
  rw [dget_fixThemes_self]
  cases h : dget d "themes" with
  | none => exact ⟨[], rfl⟩
  | some v => cases v <;> exact ⟨_, rfl⟩

theorem fixFields_nil (m : Dct) : fixFields [] m = m := rfl

theorem fixFields_cons (k : String) (ks : List String) (m : Dct) :
    fixFields (k :: ks) m = fixFields ks (dset m k (fixFieldEntry (dget m k))) := rfl

theorem dget_fixFields_not_mem {keys : List String} {m : Dct} {f : String}
    (h : f ∉ keys) : dget (fixFields keys m) f = dget m f := by
  induction keys generalizing m with
  | nil => rfl
  | cons k ks ih =>
    have h1 : f ≠ k := fun e => h (e ▸ List.mem_cons_self _ _)
    have h2 : f ∉ ks := fun e => h (List.mem_cons_of_mem _ e)
    rw [fixFields_cons, ih h2, dget_dset_ne _ _ h1]

theorem dget_fixFields_mem {keys : List String} {m : Dct} {f : String}
    (hnd : keys.Nodup) (h : f ∈ keys) :
    dget (fixFields keys m) f = some (fixFieldEntry (dget m f)) := by
  induction keys generalizing m with
  | nil => cases h
  | cons k ks ih =>
    rw [fixFields_cons]
    rcases List.mem_cons.mp h with he | hm
    · subst he
      have hnot : f ∉ ks := (List.nodup_cons.mp hnd).1
      rw [dget_fixFields_not_mem hnot, dget_dset_self]
    · have hne : f ≠ k := by
        rintro rfl
        exact (List.nodup_cons.mp hnd).1 hm
      rw [ih (List.nodup_cons.mp hnd).2 hm, dget_dset_ne _ _ hne]

theorem fixFields_id {keys : List String} {M : Dct}
    (h : ∀ f ∈ keys, ∃ v, dget M f = some v ∧ fixFieldEntry (some v) = v) :
    fixFields keys M = M := by
  induction keys with
  | nil => rfl
  | cons k ks ih =>
    obtain ⟨v, hv, hfix⟩ := h k (List.mem_cons_self _ _)
    rw [fixFields_cons, hv, hfix, dset_dget_self hv,
        ih (fun f hf => h f (List.mem_cons_of_mem _ hf))]

theorem fixFieldEntry_stable (o : Option PyVal) :
    fixFieldEntry (some (fixFieldEntry o)) = fixFieldEntry o := by
  have main : ∀ fs : Dct,
      fixFieldEntry (some (fixFieldEntry (some (.dict fs)))) =
        fixFieldEntry (some (.dict fs)) := by
    intro fs
    obtain ⟨w, hw, hwv⟩ := dget_normKey_self "sentiment" fs
    have hw3 : dget (ensureKey "key_phrases" (.list [])
        (ensureKey "confidence" (.num 0) (normKey "sentiment" fs))) "sentiment" = some w := by
      rw [dget_ensureKey_ne _ _ _ (by decide), dget_ensureKey_ne _ _ _ (by decide), hw]
    have hc3 : ∃ c, dget (ensureKey "key_phrases" (.list [])
        (ensureKey "confidence" (.num 0) (normKey "sentiment" fs))) "confidence" = some c := by
      obtain ⟨c, hc⟩ := dget_ensureKey_self "confidence" (.num 0) (normKey "sentiment" fs)
      exact ⟨c, by rw [dget_ensureKey_ne _ _ _ (by decide)]; exact hc⟩
    have hp3 : ∃ p, dget (ensureKey "key_phrases" (.list [])
        (ensureKey "confidence" (.num 0) (normKey "sentiment" fs))) "key_phrases" = some p :=
      dget_ensureKey_self _ _ _
    show PyVal.dict (ensureKey "key_phrases" (.list []) (ensureKey "confidence" (.num 0)
        (normKey "sentiment" (ensureKey "key_phrases" (.list [])
          (ensureKey "confidence" (.num 0) (normKey "sentiment" fs)))))) = _
    rw [normKey_id hw3 hwv, ensureKey_id hc3, ensureKey_id hp3]
    rfl
  match o with
  | some (.dict fs) => exact main fs
  | some .null => rfl
  | some (.bool _) => rfl
  | some (.num _) => rfl
  | some (.str _) => rfl
  | some (.list _) => rfl
  | Option.none => rfl

theorem fixFields_fixFields (keys : List String) (hnd : keys.Nodup) (m : Dct) :
    fixFields keys (fixFields keys m) = fixFields keys m :=
  fixFields_id (fun f hf =>
    ⟨fixFieldEntry (dget m f), dget_fixFields_mem hnd hf, fixFieldEntry_stable _⟩)

theorem repairDict_of_repaired {y : Dct} (h : Repaired y) : repairDict y = y := by
  obtain ⟨⟨v, hv, hvv⟩, ⟨N, hN, hNfix⟩, he, ⟨l, hl⟩, hr⟩ := h
  unfold repairDict
  rw [normKey_id hv hvv, hN]
  show ensureKey "reasoning" (.str "Analysis completed") (fixThemes
      (ensureKey "edge_cases" validatorEdgeCases
        (dset y "field_sentiments" (.dict (fixFields ANALYSIS_FIELDS N))))) = y
  rw [hNfix, dset_dget_self hN, ensureKey_id he, fixThemes_id hl, ensureKey_id hr]

theorem repaired_repairDict (d : Dct) : Repaired (repairDict d) := by
  unfold repairDict
  obtain ⟨v, hv, hvv⟩ := dget_normKey_self "overall_sentiment" d
  refine ⟨⟨v, ?_, hvv⟩,
    ⟨fixFields ANALYSIS_FIELDS (normalizeFS (dget (normKey "overall_sentiment" d) "field_sentiments")),
      ?_, fixFields_fixFields _ (by decide) _⟩, ?_, ?_, ?_⟩
  · rw [dget_ensureKey_ne _ _ _ (by decide), dget_fixThemes_ne _ (by decide),
        dget_ensureKey_ne _ _ _ (by decide), dget_dset_ne _ _ (by decide), hv]
  · rw [dget_ensureKey_ne _ _ _ (by decide), dget_fixThemes_ne _ (by decide),
        dget_ensureKey_ne _ _ _ (by decide), dget_dset_self]
  · obtain ⟨e, huh⟩ := dget_ensureKey_self "edge_cases" validatorEdgeCases
      (dset (normKey "overall_sentiment" d) "field_sentiments"
        (.dict (fixFields ANALYSIS_FIELDS
          (normalizeFS (dget (normKey "overall_sentiment" d) "field_sentiments")))))
    exact ⟨e, by
      rw [dget_ensureKey_ne _ _ _ (by decide), dget_fixThemes_ne _ (by decide)]
      exact huh⟩
  · obtain ⟨l, hl⟩ := fixThemes_list (ensureKey "edge_cases" validatorEdgeCases
      (dset (normKey "overall_sentiment" d) "field_sentiments"
        (.dict (fixFields ANALYSIS_FIELDS
          (normalizeFS (dget (normKey "overall_sentiment" d) "field_sentiments"))))))
    exact ⟨l, by
      rw [dget_ensureKey_ne _ _ _ (by decide)]
      exact hl⟩
  · exact dget_ensureKey_self _ _ _

theorem repairDict_repairDict (d : Dct) : repairDict (repairDict d) = repairDict d :=
  repairDict_of_repaired (repaired_repairDict d)

theorem validate_dict (m : Dct) :
    validate_and_fix_response (.dict m) = .dict (repairDict m) := rfl

theorem validate_list (items : List PyVal) :
    validate_and_fix_response (.list items) =
      validate_and_fix_response ((items.find? PyVal.isDict).getD (.dict [])) := by
  cases hf : items.find? PyVal.isDict with
  | none =>
    show (match (items.find? PyVal.isDict).getD (.dict []) with
          | PyVal.dict d => PyVal.dict (repairDict d)
          | _ => get_empty_response) = _
    rw [hf]
    rfl
  | some w =>
    have hw : PyVal.isDict w = true := List.find?_some hf
    show (match (items.find? PyVal.isDict).getD (.dict []) with
          | PyVal.dict d => PyVal.dict (repairDict d)
          | _ => get_empty_response) = _
    rw [hf]
    cases w <;> simp [PyVal.isDict] at hw ⊢
    rfl

theorem validate_empty_response_fixed :
    validate_and_fix_response get_empty_response = get_empty_response := rfl

/-- C6: the repair operation is idempotent — for every input `x`,
`_validate_and_fix_response (_validate_and_fix_response x)` equals
`_validate_and_fix_response x`. -/

theorem repair_idempotent (x : PyVal) :
    validate_and_fix_response (validate_and_fix_response x) =
      validate_and_fix_response x := by
  have hdict : ∀ m : Dct,
      validate_and_fix_response (validate_and_fix_response (.dict m)) =
        validate_and_fix_response (.dict m) := by
    intro m
    rw [validate_dict, validate_dict, repairDict_repairDict]
  cases x with
  | dict m => exact hdict m
  | list items =>
    rw [validate_list]
    cases hf : items.find? PyVal.isDict with
    | none => exact hdict []
    | some w =>
      have hw : PyVal.isDict w = true := List.find?_some hf
      cases w <;> simp [PyVal.isDict] at hw
      exact hdict _
  | null => exact validate_empty_response_fixed
  | bool b => exact validate_empty_response_fixed
  | num q => exact validate_empty_response_fixed
  | str s => exact validate_empty_response_fixed

/-- C4 counterexample: the claim `repair(x) == repair({})` for every
non-mapping `x` is false — on the string input `"oops"` the repair
operation returns the canonical empty response, whose `reasoning` (and
`edge_cases.language`) differ from those of `repair({})`. -/

theorem validate_non_mapping_ne_repair_empty :
    validate_and_fix_response (.str "oops") ≠ validate_and_fix_response (.dict []) := by
  intro h
  have h2 : PyVal.getKey (validate_and_fix_response (.str "oops")) "reasoning" =
      PyVal.getKey (validate_and_fix_response (.dict [])) "reasoning" := by rw [h]
  rw [show PyVal.getKey (validate_and_fix_response (.str "oops")) "reasoning" =
        some (.str "Empty or invalid text") from rfl,
      show PyVal.getKey (validate_and_fix_response (.dict [])) "reasoning" =
        some (.str "Analysis completed") from rfl] at h2
  have h3 : ("Empty or invalid text" : String) = "Analysis completed" := by
    injection h2 with h2a
    injection h2a
  exact absurd h3 (by decide)

/-- C4 (amended): a non-mapping, non-sequence input is repaired to the
canonical empty response `_get_empty_response()` (which differs from
`repair({})` in `edge_cases.language` and `reasoning`), while a sequence
input is first replaced by its first mapping element (or the empty
mapping when it has none) and that element is repaired. -/

theorem validate_non_mapping_amended (x : PyVal) :
    (x.isDict = false → x.isList = false →
      validate_and_fix_response x = get_empty_response) ∧
    (∀ items, x = .list items →
      validate_and_fix_response x =
        validate_and_fix_response ((items.find? PyVal.isDict).getD (.dict []))) := by
  constructor
  · intro h1 h2
    cases x with
    | null => rfl
    | bool b => rfl
    | num q => rfl
    | str s => rfl
    | list items => simp [PyVal.isList] at h2
    | dict m => simp [PyVal.isDict] at h1
  · rintro items rfl
    exact validate_list items

theorem validate_non_mapping_amended_witness :
    (PyVal.str "oops").isDict = false ∧ (PyVal.str "oops").isList = false ∧
    validate_and_fix_response (.str "oops") = get_empty_response ∧
    validate_and_fix_response (.list [.num 3, .dict [("overall_sentiment", .str "positive")]]) =
      validate_and_fix_response
        ((([.num 3, .dict [("overall_sentiment", .str "positive")]] : List PyVal).find?
          PyVal.isDict).getD (.dict [])) :=
  ⟨rfl, rfl, (validate_non_mapping_amended (.str "oops")).1 rfl rfl,
   (validate_non_mapping_amended (.list [.num 3, .dict [("overall_sentiment", .str "positive")]])).2
     _ rfl⟩

/-- C5 counterexample: repairing a mapping whose `themes` is a list of
four elements keeps all four — the code never truncates `themes` to three
elements. -/

theorem validate_themes_not_truncated :
    ¬ themes_at_most_three
        (validate_and_fix_response
          (.dict [("themes", .list [.num 1, .num 2, .num 3, .num 4])])) := by
  intro h
  have h4 := h [.num 1, .num 2, .num 3, .num 4] rfl
  exact absurd h4 (by decide)

/-- C5 (amended): for every input mapping, the `themes` entry of the
repaired output is the empty list when the input `themes` is absent or
not a list, and otherwise is the input list kept unchanged — the code
performs no truncation to three elements. -/

theorem validate_themes_amended (d : Dct) :
    PyVal.getKey (validate_and_fix_response (.dict d)) "themes" =
      some (match dget d "themes" with
            | some (PyVal.list l) => PyVal.list l
            | _ => PyVal.list []) := by
  rw [validate_dict]
  show dget (repairDict d) "themes" = _
  unfold repairDict
  rw [dget_ensureKey_ne _ _ _ (by decide), dget_fixThemes_self,
      dget_ensureKey_ne _ _ _ (by decide), dget_dset_ne _ _ (by decide),
      dget_normKey_ne _ _ (by decide)]

theorem run_quick_filter_spec {P : Type} (qf : P → ScoreResult) (t : ℚ) (posts : List P) :
    run_quick_filter qf t posts =
      ((posts.filter fun p => (qf p).should_process && decide ((qf p).confidence ≥ t)).map
         (fun p => (p, (qf p).reason)),
       posts.filter (fun p => (qf p).should_process && !decide ((qf p).confidence ≥ t)),
       posts.countP fun p => !(qf p).should_process) := by
  induction posts with
  | nil => rfl
  | cons p ps ih =>
    simp only [run_quick_filter, ih, List.filter_cons, List.countP_cons]
    by_cases h1 : (qf p).should_process <;> by_cases h2 : (qf p).confidence ≥ t <;>
      simp [h1, h2]

theorem run_quick_filter_count {P : Type} (qf : P → ScoreResult) (t : ℚ) (posts : List P) :
    (run_quick_filter qf t posts).2.2 + (run_quick_filter qf t posts).1.length +
      (run_quick_filter qf t posts).2.1.length = posts.length := by
  induction posts with
  | nil => rfl
  | cons p ps ih =>
    simp only [run_quick_filter]
    by_cases h1 : (qf p).should_process <;> by_cases h2 : (qf p).confidence ≥ t <;>
      simp [h1, h2] <;> omega

/-- C2: `run_quick_filter` partitions its input: the rejected count plus
the lengths of the two output sequences equals the input length, the
auto-accepted sequence is exactly the accepted posts meeting the
threshold (each paired with its reason), the needs-review sequence is
exactly the accepted posts below the threshold, and the rejected count
counts exactly the non-accepted posts — so every input lands in exactly
one bucket, with no duplicates and no omissions. -/

theorem run_quick_filter_partitions {P : Type} (qf : P → ScoreResult) (t : ℚ)
    (posts : List P) :
    (run_quick_filter qf t posts).2.2 + (run_quick_filter qf t posts).1.length +
        (run_quick_filter qf t posts).2.1.length = posts.length ∧
    (run_quick_filter qf t posts).1 =
      (posts.filter fun p => (qf p).should_process && decide ((qf p).confidence ≥ t)).map
        (fun p => (p, (qf p).reason)) ∧
    (run_quick_filter qf t posts).2.1 =
      posts.filter (fun p => (qf p).should_process && !decide ((qf p).confidence ≥ t)) ∧
    (run_quick_filter qf t posts).2.2 =
      posts.countP (fun p => !(qf p).should_process) := by
  refine ⟨run_quick_filter_count qf t posts, ?_, ?_, ?_⟩ <;> rw [run_quick_filter_spec]

/-- C7: with the default `auto_accept_threshold = 0.8`, a post scored
`(accept = true, confidence = 0.85)` lands in the auto-accepted bucket
(paired with its reason), one scored `(true, 0.65)` lands in the
needs-review bucket, and one scored `(false, 0.0)` is counted rejected. -/

theorem router_default_threshold_buckets {P : Type} (qf : P → ScoreResult)
    (posts : List P) (a b c : P) (ra rb rc : String)
    (ha : a ∈ posts) (hqa : qf a = ⟨true, 0.85, ra⟩)
    (hb : b ∈ posts) (hqb : qf b = ⟨true, 0.65, rb⟩)
    (hc : c ∈ posts) (hqc : qf c = ⟨false, 0, rc⟩) :
    (a, ra) ∈ (run_quick_filter qf 0.8 posts).1 ∧
    b ∈ (run_quick_filter qf 0.8 posts).2.1 ∧
    1 ≤ (run_quick_filter qf 0.8 posts).2.2 := by
  rw [run_quick_filter_spec]
  refine ⟨?_, ?_, ?_⟩
  · refine List.mem_map.mpr ⟨a, List.mem_filter.mpr ⟨ha, ?_⟩, by rw [hqa]⟩
    rw [hqa]
    show (true && decide ((0.85 : ℚ) ≥ 0.8)) = true
    simp
    norm_num
  · refine List.mem_filter.mpr ⟨hb, ?_⟩
    rw [hqb]
    show (true && !decide ((0.65 : ℚ) ≥ 0.8)) = true
    simp
    norm_num
  · refine Nat.succ_le_of_lt (List.countP_pos_iff.mpr ⟨c, hc, ?_⟩)
    rw [hqc]
    rfl

theorem router_default_threshold_buckets_witness :
    (0 : Nat) ∈ [0, 1, 2] ∧ routerExampleScorer 0 = ⟨true, 0.85, "hi"⟩ ∧
    (1 : Nat) ∈ [0, 1, 2] ∧ routerExampleScorer 1 = ⟨true, 0.65, "mid"⟩ ∧
    (2 : Nat) ∈ [0, 1, 2] ∧ routerExampleScorer 2 = ⟨false, 0, "no"⟩ ∧
    (0, "hi") ∈ (run_quick_filter routerExampleScorer 0.8 [0, 1, 2]).1 ∧
    1 ∈ (run_quick_filter routerExampleScorer 0.8 [0, 1, 2]).2.1 ∧
    1 ≤ (run_quick_filter routerExampleScorer 0.8 [0, 1, 2]).2.2 := by
  have h := router_default_threshold_buckets routerExampleScorer [0, 1, 2] 0 1 2
    "hi" "mid" "no" (by decide) rfl (by decide) rfl (by decide) rfl
  exact ⟨by decide, rfl, by decide, rfl, by decide, rfl, h.1, h.2.1, h.2.2⟩

/-- C8: whenever the combined lowercased content mentions the brand and
contains a configured generic phrase, `passes_quick_filter` returns
`(should_process = false, confidence = 0.1)` — regardless of whatever
later rungs of the ladder (in particular strong indicators) would match,
because the generic-phrase check runs before the strong-indicator check. -/

theorem generic_phrase_overrides_strong_indicator (post : Post)
    (hm : strContains (filterContent post) "taboola" = true)
    (hg : ∃ p ∈ generic_phrases, strContains (filterContent post) p = true) :
    (passes_quick_filter post).should_process = false ∧
      (passes_quick_filter post).confidence = 0.1 := by
  unfold passes_quick_filter
  cases hf : (generic_phrases.find? fun p => strContains (filterContent post) p) with
  | none =>
    obtain ⟨p, hp, hsp⟩ := hg
    exact absurd hsp (by simpa using List.find?_eq_none.mp hf p hp)
  | some p => simp [hm, hf]

theorem generic_phrase_overrides_strong_indicator_witness :
    strContains (filterContent genericPhrasePost) "taboola" = true ∧
    strContains (filterContent genericPhrasePost) "i realize" = true ∧
    "i realize" ∈ generic_phrases ∧
    strContains (filterContent genericPhrasePost) "taboola widget" = true ∧
    "taboola widget" ∈ strong_indicators ∧
    (passes_quick_filter genericPhrasePost).should_process = false ∧
      (passes_quick_filter genericPhrasePost).confidence = 0.1 := by
  have h := generic_phrase_overrides_strong_indicator genericPhrasePost (by decide)
    ⟨"i realize", by decide, by decide⟩
  exact ⟨by decide, by decide, by decide, by decide, by decide, h.1, h.2⟩

/-- C9: two processed items scoring `product_quality` positive at
confidences 0.8 and 0.7 yield the distribution entry
`positive: 100.0, total_mentions: 2` for that field — both confidences
exceed the low threshold 0.3, so both items qualify. -/

theorem field_distribution_two_positive_items :
    (calculate_field_distributions [productQualityItem 0.8, productQualityItem 0.7]).find?
        (fun p => p.1 == "product_quality") =
      some ("product_quality", [("positive", 100), ("total_mentions", 2)]) ∧
    (0.8 : ℚ) > LOW_CONFIDENCE_THRESHOLD ∧ (0.7 : ℚ) > LOW_CONFIDENCE_THRESHOLD := by
  refine ⟨?_, by norm_num [LOW_CONFIDENCE_THRESHOLD], by norm_num [LOW_CONFIDENCE_THRESHOLD]⟩
  norm_num [calculate_field_distributions, fieldSentimentCounts, productQualityItem,
    lookupField, counterAdd, LOW_CONFIDENCE_THRESHOLD, ANALYSIS_FIELDS]

/-- C3 counterexample: `GeminiClient.generate` does not propagate a
non-retryable 4xx immediately — under an oracle answering 404 on every
attempt it makes all 3 configured requests and sleeps twice before the
error reaches the caller, because its single `except` clause retries
every caught exception, including the `raise_for_status` error of a 4xx
response. -/

theorem gemini_generate_retries_on_404 :
    (gemini_generate (fun _ => .resp 404 "" Option.none)).requests = 3 ∧
    (gemini_generate (fun _ => .resp 404 "" Option.none)).sleeps = 2 ∧
    (gemini_generate (fun _ => .resp 404 "" Option.none)).outcome =
      .error ("status " ++ toString 404) :=
  ⟨rfl, rfl, rfl⟩

/-- C3 (amended): the fail-fast behaviour holds for `call_gemini_filter`
(reddit_ingestion_agent.py): on a first response whose status is neither
200 nor retryable, it raises after exactly one request with no sleep;
`GeminiClient.generate` (llm_client.py) instead retries all failures
uniformly, 4xx included (see the counterexample). -/

theorem call_gemini_filter_non_retryable_fails_fast
    (http : Nat → HttpResp) (code : Nat) (body : String) (parsed : Option PyVal)
    (h0 : http 0 = .resp code body parsed)
    (hn200 : code ≠ 200) (hnr : code ∉ RETRYABLE_STATUS) :
    (call_gemini_filter http).requests = 1 ∧
    (call_gemini_filter http).sleeps = 0 ∧
    (call_gemini_filter http).outcome =
      .error ("Gemini returned status " ++ toString code) := by
  unfold call_gemini_filter redditFilterGo
  rw [h0]
  simp [hn200, hnr]

theorem call_gemini_filter_non_retryable_witness :
    ((fun _ => HttpResp.resp 404 "" Option.none) 0 : HttpResp) =
        .resp 404 "" Option.none ∧
    (404 : Nat) ≠ 200 ∧ (404 : Nat) ∉ RETRYABLE_STATUS ∧
    (call_gemini_filter (fun _ => .resp 404 "" Option.none)).requests = 1 ∧
    (call_gemini_filter (fun _ => .resp 404 "" Option.none)).sleeps = 0 ∧
    (call_gemini_filter (fun _ => .resp 404 "" Option.none)).outcome =
      .error ("Gemini returned status " ++ toString 404) := by
  have h := call_gemini_filter_non_retryable_fails_fast
    (fun _ => .resp 404 "" Option.none) 404 "" Option.none rfl (by decide) (by decide)
  exact ⟨rfl, by decide, by decide, h.1, h.2.1, h.2.2⟩

/-- C10: on blank input text (empty or all whitespace) `analyze_text`
returns the canonical empty response — overall sentiment neutral, every
configured field at confidence 0, reasoning `Empty or invalid text` —
with the caller metadata attached when truthy, and never invokes the
LLM client. -/

theorem analyze_text_blank_skips_llm (env : AnalyzeEnv) (text context : String)
    (metadata : Dct) (h : strBlank text = true) :
    (analyze_text env text context metadata).gen_calls = 0 ∧
    (analyze_text env text context metadata).result =
      .ok (attach_metadata metadata get_empty_response) ∧
    PyVal.getKey get_empty_response "overall_sentiment" = some (.str "neutral") ∧
    PyVal.getKey get_empty_response "reasoning" = some (.str "Empty or invalid text") ∧
    ∀ f ∈ ANALYSIS_FIELDS,
      ((PyVal.getKey get_empty_response "field_sentiments").bind
          (fun fs => fs.getKey f)).bind (fun e => e.getKey "confidence") =
        some (.num 0) := by
  refine ⟨?_, ?_, rfl, rfl, ?_⟩
  · unfold analyze_text
    rw [h]
    rfl
  · unfold analyze_text
    rw [h]
    rfl
  · intro f hf
    fin_cases hf <;> rfl

theorem analyze_text_blank_skips_llm_witness :
    strBlank "  " = true ∧
    (analyze_text blankTextEnv "  " "post" [("id", .str "x")]).gen_calls = 0 ∧
    (analyze_text blankTextEnv "  " "post" [("id", .str "x")]).result =
      .ok (attach_metadata [("id", .str "x")] get_empty_response) := by
  have h := analyze_text_blank_skips_llm blankTextEnv "  " "post" [("id", .str "x")]
    (by decide)
  exact ⟨by decide, h.1, h.2.1⟩

theorem length_fill_slots (slots : List (Option PyVal)) (pairs : List (Nat × PyVal)) :
    (fill_slots slots pairs).length = slots.length := by
  induction pairs generalizing slots with
  | nil => rfl
  | cons p rest ih =>
    obtain ⟨i, v⟩ := p
    rw [fill_slots, ih, List.length_set]

theorem fill_slots_not_mem {pairs : List (Nat × PyVal)} (slots : List (Option PyVal))
    {j : Nat} (h : ∀ p ∈ pairs, p.1 ≠ j) :
    (fill_slots slots pairs)[j]? = slots[j]? := by
  induction pairs generalizing slots with
  | nil => rfl
  | cons p rest ih =>
    obtain ⟨i, v⟩ := p
    rw [fill_slots, ih _ (fun q hq => h q (List.mem_cons_of_mem _ hq)),
        List.getElem?_set_ne (h (i, v) (List.mem_cons_self _ _))]

theorem fill_slots_mem (slots : List (Option PyVal)) {pairs : List (Nat × PyVal)}
    {j : Nat} {v : PyVal} (hnd : (pairs.map Prod.fst).Nodup) (hmem : (j, v) ∈ pairs)
    (hj : j < slots.length) :
    (fill_slots slots pairs)[j]? = some (some v) := by
  induction pairs generalizing slots with
  | nil => cases hmem
  | cons p rest ih =>
    obtain ⟨i, w⟩ := p
    simp only [List.map_cons, List.nodup_cons] at hnd
    rcases List.mem_cons.mp hmem with he | hm
    · obtain ⟨rfl, rfl⟩ : i = j ∧ w = v := by
        injection he with h1 h2
        exact ⟨h1.symm, h2.symm⟩
      have hne : ∀ q ∈ rest, q.1 ≠ i := by
        intro q hq e
        exact hnd.1 (by rw [← e]; exact List.mem_map_of_mem Prod.fst hq)
      rw [fill_slots, fill_slots_not_mem _ hne, List.getElem?_set_self hj]
    · rw [fill_slots]
      exact ih _ hnd.2 hm (by rw [List.length_set]; exact hj)

theorem fst_of_pairs_sublist (env : AnalyzeEnv) (items : List BatchItem)
    (order : List Nat) :
    ((order.filterMap fun i => (items[i]?).map fun it => (i, process_item env it)).map
        Prod.fst).Sublist order := by
  induction order with
  | nil => simp
  | cons i rest ih =>
    rw [List.filterMap_cons]
    cases h : items[i]? with
    | none => simpa [Option.map] using ih.cons i
    | some it => simpa [Option.map] using ih.cons₂ i

theorem validate_isDict (x : PyVal) : (validate_and_fix_response x).isDict = true := by
  unfold validate_and_fix_response
  generalize (match x with
    | PyVal.list items => (items.find? PyVal.isDict).getD (.dict [])
    | _ => x) = y
  cases y <;> rfl

theorem attach_metadata_isDict (metadata : Dct) {v : PyVal} (h : v.isDict = true) :
    (attach_metadata metadata v).isDict = true := by
  cases v with
  | dict d =>
    unfold attach_metadata
    by_cases hm : metadata.isEmpty <;> simp [hm, PyVal.isDict]
  | null => simp [PyVal.isDict] at h
  | bool b => simp [PyVal.isDict] at h
  | num q => simp [PyVal.isDict] at h
  | str s => simp [PyVal.isDict] at h
  | list l => simp [PyVal.isDict] at h

theorem analyze_text_ok_isDict (env : AnalyzeEnv) (text context : String)
    (metadata : Dct) {r : PyVal}
    (h : (analyze_text env text context metadata).result = .ok r) :
    r.isDict = true := by
  unfold analyze_text at h
  by_cases hb : strBlank text
  · rw [if_pos hb] at h
    injection h with h
    exact h ▸ attach_metadata_isDict _ rfl
  · rw [if_neg hb] at h
    cases hg : env.gen (env.build_prompt text context) with
    | error e => rw [hg] at h; simp at h
    | ok raw =>
      rw [hg] at h
      simp only [] at h
      cases hp : parse_llm_output env.jsonParse raw with
      | error e => rw [hp] at h; simp at h
      | ok parsed =>
        rw [hp] at h
        simp only [] at h
        have h2 : attach_metadata metadata (validate_and_fix_response parsed) = r := by
          simpa using h
        exact h2 ▸ attach_metadata_isDict _ (validate_isDict parsed)

theorem process_item_isDict (env : AnalyzeEnv) (item : BatchItem) :
    (process_item env item).isDict = true := by
  unfold process_item
  cases h : (analyze_text env item.text item.context item.metadata).result with
  | error e => rfl
  | ok r => exact analyze_text_ok_isDict env item.text item.context item.metadata h

/-- C1: for every completion order of the worker pool (any permutation of
the submission indices), `analyze_batch` returns one result per input
item, in submission order: the slot of an item whose analysis raised
holds the canonical empty response while every other slot holds its own
result, and the batch itself never raises (it is a total function). -/

theorem analyze_batch_preserves_order (env : AnalyzeEnv) (items : List BatchItem)
    (order : List Nat) (hperm : order.Perm (List.range items.length)) :
    (analyze_batch env items order).length = items.length ∧
    analyze_batch env items order = items.map (process_item env) ∧
    ∀ it : BatchItem, process_item env it =
      match (analyze_text env it.text it.context it.metadata).result with
      | .ok r => r
      | .error _ => get_empty_response := by
  have hlen : (analyze_batch env items order).length = items.length := by
    unfold analyze_batch
    rw [List.length_map, length_fill_slots, List.length_replicate]
  refine ⟨hlen, ?_, fun _ => rfl⟩
  apply List.ext_getElem?
  intro j
  by_cases hj : j < items.length
  · obtain ⟨it, hit⟩ : ∃ it, items[j]? = some it :=
      ⟨items[j], List.getElem?_eq_getElem hj⟩
    have hjorder : j ∈ order := hperm.mem_iff.mpr (List.mem_range.mpr hj)
    have hmem : (j, process_item env it) ∈ order.filterMap
        (fun i => (items[i]?).map fun x => (i, process_item env x)) :=
      List.mem_filterMap.mpr ⟨j, hjorder, by rw [hit]; rfl⟩
    have hnd : ((order.filterMap
        (fun i => (items[i]?).map fun x => (i, process_item env x))).map Prod.fst).Nodup :=
      (fst_of_pairs_sublist env items order).nodup
        (hperm.nodup_iff.mpr (List.nodup_range _))
    have hslot := fill_slots_mem (List.replicate items.length Option.none) hnd hmem
      (by rw [List.length_replicate]; exact hj)
    unfold analyze_batch
    rw [List.getElem?_map, hslot]
    rw [List.getElem?_map, hit]
    have hdict := process_item_isDict env it
    simp [Option.map, hdict]
  · have h1 : (analyze_batch env items order)[j]? = Option.none :=
      List.getElem?_eq_none (by rw [hlen]; omega)
    have h2 : (items.map (process_item env))[j]? = Option.none :=
      List.getElem?_eq_none (by rw [List.length_map]; omega)
    rw [h1, h2]

theorem analyze_batch_preserves_order_witness :
    ([2, 0, 1].Perm (List.range batchItems.length)) ∧
    analyze_batch batchEnv batchItems [2, 0, 1] = batchItems.map (process_item batchEnv) ∧
    analyze_batch batchEnv batchItems [2, 0, 1] =
      [process_item batchEnv ⟨"A", "post", []⟩, get_empty_response,
       process_item batchEnv ⟨"C", "comment", []⟩] := by
  have h := analyze_batch_preserves_order batchEnv batchItems [2, 0, 1] (by decide)
  refine ⟨by decide, h.2.1, ?_⟩
  rw [h.2.1]
  rfl

end SocialListening
